import Mathlib

/-!
Verification development for the `extbpy` tool: a shallow embedding of
`src/extbpy/platforms.py` and `src/extbpy/builder.py` together with proofs
about the embedded operations.

Conventions of the embedding:
- Python strings become `String`; `str.lower()` becomes `lowerStr`;
  the Python substring test `a in b` becomes `strHasSub`.
- Exceptions become `Except ExtbpyErr`; the exception classes of
  `extbpy.exceptions` become the constructors of `ExtbpyErr`.
- The filesystem is passed explicitly: a directory is a list of file names,
  a TOML document is an association list of keys and values.
- External subprocesses (pip downloads) become an explicit outcome oracle
  `fetch : String → Bool` giving the success of the download for a platform.
-/

/-- `startsList need hay` is true when `need` is an initial segment of `hay`
(the character-list version of a string starting with another). -/
def startsList : List Char → List Char → Bool
  | [], _ => true
  | _ :: _, [] => false
  | a :: as, b :: bs => a == b && startsList as bs

/-- `hasSub need hay` is true when `need` occurs contiguously inside `hay`;
it embeds the Python substring test `need in hay`. -/
def hasSub : List Char → List Char → Bool
  | need, [] => startsList need []
  | need, c :: t => startsList need (c :: t) || hasSub need t

/-- String-level substring test: embeds Python `need in hay`. -/
def strHasSub (need hay : String) : Bool :=
  hasSub need.toList hay.toList

/-- Embeds Python `str.lower()` (sufficient for the ASCII names used here). -/
def lowerStr (s : String) : String :=
  String.mk (s.toList.map Char.toLower)

/-- Embeds Python `sep.join(parts)`. -/
def joinSep (sep : String) : List String → String
  | [] => ""
  | [a] => a
  | a :: b :: rest => a ++ sep ++ joinSep sep (b :: rest)

/-- `strEndsWith suffix s` is true when `s` ends with `suffix`. -/
def strEndsWith (suffix s : String) : Bool :=
  startsList suffix.toList.reverse s.toList.reverse

/-- Fueled worker for `replaceChars`: scans left to right, replacing each
non-overlapping occurrence of `pat` by `rep`, as Python `str.replace` does.
The fuel is an upper bound on the number of scan steps; every step consumes
at least one character, so `s.length` fuel always suffices. -/
def goReplace (pat rep : List Char) : Nat → List Char → List Char
  | _, [] => []
  | 0, s => s
  | Nat.succ n, c :: rest =>
    if startsList pat (c :: rest) && !pat.isEmpty then
      rep ++ goReplace pat rep n ((c :: rest).drop pat.length)
    else
      c :: goReplace pat rep n rest

/-- Character-list version of Python `s.replace(pat, rep)`. -/
def replaceChars (s pat rep : List Char) : List Char :=
  goReplace pat rep s.length s

/-- Embeds Python `s.replace(pat, rep)`. -/
def strReplace (s pat rep : String) : String :=
  String.mk (replaceChars s.toList pat.toList rep.toList)

/-- Decidable equality of results, used to evaluate the embedded operations
on concrete inputs. -/
instance {ε α : Type} [DecidableEq ε] [DecidableEq α] : DecidableEq (Except ε α) := fun a b =>
  match a, b with
  | Except.error x, Except.error y =>
    if h : x = y then isTrue (by rw [h]) else isFalse (fun hh => by cases hh; exact h rfl)
  | Except.error _, Except.ok _ => isFalse (fun hh => by cases hh)
  | Except.ok _, Except.error _ => isFalse (fun hh => by cases hh)
  | Except.ok x, Except.ok y =>
    if h : x = y then isTrue (by rw [h]) else isFalse (fun hh => by cases hh; exact h rfl)

/-- The exception taxonomy of `extbpy.exceptions`, one constructor per
exception class raised by the embedded code. -/
inductive ExtbpyErr where
  | configurationError (msg : String)
  | platformError (msg : String)
  | dependencyError (msg : String)
  | buildError (msg : String)
  | blenderError (msg : String)
deriving DecidableEq

/-- The `Platform` dataclass of `platforms.py`. -/
structure Platform where
  name : String
  pypi_suffix : String
  metadata : String
deriving DecidableEq

/-- The `PLATFORMS` registry of `platforms.py`, as an association list in
insertion order (Python dictionaries preserve insertion order). -/
def PLATFORMS : List (String × Platform) :=
  [ ("windows-x64", ⟨"windows-x64", "win_amd64", "windows-x64"⟩),
    ("linux-x64", ⟨"linux-x64", "manylinux2014_x86_64", "linux-x64"⟩),
    ("macos-arm64", ⟨"macos-arm64", "macosx_12_0_arm64", "macos-arm64"⟩),
    ("macos-x64", ⟨"macos-x64", "macosx_10_16_x86_64", "macos-x64"⟩) ]

/-- The registry keys, in order: `PLATFORMS.keys()`. -/
def platformNames : List String :=
  PLATFORMS.map (fun e => e.1)

/-- The message raised by `get_platform` for an unknown name. -/
def unsupportedMsg (name : String) : String :=
  "Unsupported platform \x27" ++ name ++ "\x27. Available: " ++ joinSep ", " platformNames

/-- `get_platform` of `platforms.py`: dictionary lookup in `PLATFORMS`,
raising `PlatformError` with the list of valid names when absent. -/
def get_platform (name : String) : Except ExtbpyErr Platform :=
  match PLATFORMS.find? (fun e => e.1 == name) with
  | some e => Except.ok e.2
  | none => Except.error (ExtbpyErr.platformError (unsupportedMsg name))

/-- `get_platforms` of `platforms.py`: lookup of every name in order,
propagating the first failure. -/
def get_platforms (names : List String) : Except ExtbpyErr (List Platform) :=
  names.mapM get_platform

/-- `detect_current_platform` of `platforms.py`. The running system is made
explicit: `system` and `machine` are the values of `platform.system()` and
`platform.machine()`; the code lowercases both before dispatching. -/
def detect_current_platform (system machine : String) : Except ExtbpyErr (List String) :=
  if lowerStr system = "darwin" then
    if lowerStr machine = "arm64" ∨ lowerStr machine = "aarch64" then Except.ok ["macos-arm64"]
    else Except.ok ["macos-x64"]
  else if lowerStr system = "linux" then
    if lowerStr machine = "x86_64" ∨ lowerStr machine = "amd64" then Except.ok ["linux-x64"]
    else Except.error (ExtbpyErr.platformError
      ("Unsupported Linux architecture: " ++ lowerStr machine))
  else if lowerStr system = "windows" then
    if lowerStr machine = "x86_64" ∨ lowerStr machine = "amd64" then Except.ok ["windows-x64"]
    else Except.error (ExtbpyErr.platformError
      ("Unsupported Windows architecture: " ++ lowerStr machine))
  else Except.error (ExtbpyErr.platformError
    ("Unsupported operating system: " ++ lowerStr system))

/-- Written from the wording of the spec, for comparison with the code: a
logical platform name matches a machine architecture when the architecture
is the one the registry entry stands for (`windows-x64`, `linux-x64` and
`macos-x64` are x86-64 platforms; `macos-arm64` is an arm64 platform). -/
def specMachineMatches (pname machine : String) : Bool :=
  if pname = "macos-arm64" then machine == "arm64" || machine == "aarch64"
  else if pname = "windows-x64" ∨ pname = "linux-x64" ∨ pname = "macos-x64" then
    machine == "x86_64" || machine == "amd64"
  else false

/-- The characters after the last dash of a wheel filename. -/
def lastSegment (cs : List Char) : List Char :=
  (cs.reverse.takeWhile (fun c => !(c == '-'))).reverse

/-- Drops a trailing `.whl` from a character list, when present. -/
def stripWhl (cs : List Char) : List Char :=
  if startsList ['l', 'h', 'w', '.'] cs.reverse then (cs.reverse.drop 4).reverse else cs

/-- The platform tag of a wheel filename: the segment after the last dash,
with the `.whl` extension removed. -/
def platformTag (filename : String) : String :=
  String.mk (stripWhl (lastSegment filename.toList))

/-- Modelled from the spec: `match_wheel_to_platforms` is exercised by
`tests/test_platforms.py` but its definition is not among the provided
source files; this follows section 4.2 of the spec word for word. The
universal tag `any` matches all four platforms; a `win_amd64` tag matches
`windows-x64`; a `manylinux*_x86_64` tag matches `linux-x64`; a macOS tag
is dispatched on its architecture suffix (`x86_64`, `arm64`, `universal2`);
any other tag matches nothing. -/
def match_wheel_to_platforms (filename : String) : List String :=
  let tag := platformTag filename
  if tag = "any" then platformNames
  else if strHasSub "win_amd64" tag then ["windows-x64"]
  else if strHasSub "manylinux" tag && strEndsWith "_x86_64" tag then ["linux-x64"]
  else if strHasSub "macosx" tag then
    if strEndsWith "_universal2" tag then ["macos-x64", "macos-arm64"]
    else if strEndsWith "_arm64" tag then ["macos-arm64"]
    else if strEndsWith "_x86_64" tag then ["macos-x64"]
    else []
  else []

/-- The default excluded-package set of `ExtensionBuilder.__init__`. -/
def defaultExcludedPackages : List String :=
  ["pyarrow", "certifi", "charset_normalizer", "idna", "numpy", "requests", "urllib3"]

/-- The excluded-package computation of `ExtensionBuilder.__init__`:
`excluded_packages or {...defaults...}`. Python `or` tests truthiness, so
both `None` and an explicitly empty set fall back to the defaults. -/
def initExcludedPackages (arg : Option (List String)) : List String :=
  match arg with
  | none => defaultExcludedPackages
  | some l => if l.isEmpty then defaultExcludedPackages else l

/-- The exclusion test of `_filter_wheels`: some excluded package name is a
case-insensitive substring of the wheel filename. -/
def shouldExclude (excluded : List String) (filename : String) : Bool :=
  excluded.any (fun pkg => strHasSub (lowerStr pkg) (lowerStr filename))

/-- Code-point lexicographic comparison of character lists: the order
Python applies when sorting a list of strings. -/
def charsLe : List Char → List Char → Bool
  | [], _ => true
  | _ :: _, [] => false
  | a :: as, b :: bs =>
    if a < b then true
    else if b < a then false
    else charsLe as bs

/-- The string order used by `wheel_files.sort()`: code-point lexicographic
comparison of the two filenames. -/
def wheelOrder (a b : String) : Prop :=
  charsLe a.toList b.toList = true

instance : DecidableRel wheelOrder := fun a b =>
  inferInstanceAs (Decidable (charsLe a.toList b.toList = true))

/-- Totality of the lexicographic comparison. -/
def charsLe_total : ∀ a b : List Char, charsLe a b = true ∨ charsLe b a = true := by
  intro a
  induction a with
  | nil => intro b; exact Or.inl rfl
  | cons x xs ih =>
    intro b
    cases b with
    | nil => exact Or.inr rfl
    | cons y ys =>
      by_cases hxy : x < y
      · left
        simp [charsLe, hxy]
      · by_cases hyx : y < x
        · right
          simp [charsLe, hyx]
        · rcases ih ys with h | h
          · left
            simp [charsLe, hxy, hyx, h]
          · right
            simp [charsLe, hyx, hxy, h]

/-- Transitivity of the lexicographic comparison. -/
def charsLe_trans : ∀ a b c : List Char,
    charsLe a b = true → charsLe b c = true → charsLe a c = true := by
  intro a
  induction a with
  | nil => intro b c _ _; rfl
  | cons x xs ih =>
    intro b c hab hbc
    cases b with
    | nil => simp [charsLe] at hab
    | cons y ys =>
      cases c with
      | nil => simp [charsLe] at hbc
      | cons z zs =>
        by_cases hxy : x < y
        · by_cases hyz : y < z
          · have hxz : x < z := lt_trans hxy hyz
            simp [charsLe, hxz]
          · by_cases hzy : z < y
            · simp [charsLe, hyz, hzy] at hbc
            · have hyz2 : y = z := le_antisymm (not_lt.mp hzy) (not_lt.mp hyz)
              have hxz : x < z := hyz2 ▸ hxy
              simp [charsLe, hxz]
        · by_cases hyx : y < x
          · simp [charsLe, hxy, hyx] at hab
          · have hxy2 : x = y := le_antisymm (not_lt.mp hyx) (not_lt.mp hxy)
            subst hxy2
            have hab2 : charsLe xs ys = true := by
              simpa [charsLe, lt_irrefl] using hab
            by_cases hxz : x < z
            · simp [charsLe, hxz]
            · by_cases hzx : z < x
              · simp [charsLe, hxz, hzx] at hbc
              · have hbc2 : charsLe ys zs = true := by
                  simpa [charsLe, hxz, hzx] using hbc
                simp [charsLe, hxz, hzx, ih ys zs hab2 hbc2]

/-- Antisymmetry of the lexicographic comparison. -/
def charsLe_antisymm : ∀ a b : List Char,
    charsLe a b = true → charsLe b a = true → a = b := by
  intro a
  induction a with
  | nil =>
    intro b _ hba
    cases b with
    | nil => rfl
    | cons y ys => simp [charsLe] at hba
  | cons x xs ih =>
    intro b hab hba
    cases b with
    | nil => simp [charsLe] at hab
    | cons y ys =>
      by_cases hxy : x < y
      · simp [charsLe, lt_asymm hxy, hxy] at hba
      · by_cases hyx : y < x
        · simp [charsLe, hxy, hyx] at hab
        · have hxy2 : x = y := le_antisymm (not_lt.mp hyx) (not_lt.mp hxy)
          subst hxy2
          have h1 : charsLe xs ys = true := by simpa [charsLe, lt_irrefl] using hab
          have h2 : charsLe ys xs = true := by simpa [charsLe, lt_irrefl] using hba
          rw [ih ys h1 h2]

instance : IsTotal String wheelOrder :=
  ⟨fun a b => charsLe_total a.toList b.toList⟩

instance : IsTrans String wheelOrder :=
  ⟨fun a b c => charsLe_trans a.toList b.toList c.toList⟩

instance : IsAntisymm String wheelOrder :=
  ⟨fun a b h1 h2 => by
    have h := charsLe_antisymm a.toList b.toList h1 h2
    cases a
    cases b
    exact congrArg String.mk h⟩

/-- The `wheel_files.sort()` call of `_filter_wheels`. -/
def sortWheels (files : List String) : List String :=
  List.insertionSort wheelOrder files

/-- `_filter_wheels`: the wheel filenames of the wheels directory are
sorted, then partitioned into the kept list and the removed list; the
removed files are deleted from disk and the kept list is returned. -/
def filter_wheels (excluded files : List String) : List String × List String :=
  let sorted := sortWheels files
  (sorted.filter (fun n => !shouldExclude excluded n),
   sorted.filter (fun n => shouldExclude excluded n))

/-- The wheels directory after `_filter_wheels` ran: the original listing
minus the files it unlinked. -/
def remainingOnDisk (excluded files : List String) : List String :=
  files.filter (fun n => !shouldExclude excluded n)

/-- The relative wheel paths written into the manifest:
`f"./wheels/{whl.name}"` for each kept wheel. -/
def wheelRelPaths (kept : List String) : List String :=
  kept.map (fun n => "./wheels/" ++ n)

/-- A TOML value of the manifest model: the tool itself only writes string
lists, other fields of the loaded document may also hold plain strings. -/
inductive TomlValue where
  | str (s : String)
  | strList (l : List String)
deriving DecidableEq

/-- A TOML document as an association list in file order. -/
def TomlDoc := List (String × TomlValue)

/-- Key assignment as `tomlkit` performs it: overwrite the value in place
when the key exists, append the pair at the end otherwise. -/
def setKey : List (String × TomlValue) → String → TomlValue → List (String × TomlValue)
  | [], k, v => [(k, v)]
  | (k0, v0) :: rest, k, v =>
    if k0 == k then (k0, v) :: rest else (k0, v0) :: setKey rest k v

/-- Key lookup in a document. -/
def lookupKey (k : String) (doc : List (String × TomlValue)) : Option TomlValue :=
  (doc.find? (fun e => e.1 == k)).map (fun e => e.2)

/-- TOML basic-string escaping of the serializer: a backslash is written as
two backslashes and a double quote as a backslash-quote pair. -/
def escapeChars : List Char → List Char
  | [] => []
  | c :: rest =>
    (if c == '\\' then ['\\', '\\'] else if c == '"' then ['\\', '"'] else [c])
      ++ escapeChars rest

/-- A string value as the serializer writes it, quotes included. -/
def quoteStr (s : String) : String :=
  "\"" ++ String.mk (escapeChars s.toList) ++ "\""

/-- Serialization of a TOML value. -/
def dumpValue : TomlValue → String
  | TomlValue.str s => quoteStr s
  | TomlValue.strList l => "[" ++ joinSep ", " (l.map quoteStr) ++ "]"

/-- Serialization of one key-value line. -/
def dumpEntry (k : String) (v : TomlValue) : String :=
  k ++ " = " ++ dumpValue v

/-- Serialization of a whole document, one entry per line. -/
def dumpDoc : List (String × TomlValue) → String
  | [] => ""
  | e :: rest => dumpEntry e.1 e.2 ++ "\n" ++ dumpDoc rest

/-- The textual post-processing of `update_manifest`, applied to the dumped
document before it is written: the four chained `str.replace` calls. -/
def applyReplaces (s : String) : String :=
  strReplace
    (strReplace
      (strReplace
        (strReplace s "[\"" "[\n\t\"")
        "\", \"" "\",\n\t\"")
      "\"]" "\",\n]")
    "\\\\" "/"

/-- The document-level effect of `update_manifest`: the `wheels` key is set
to the relative paths of the kept wheels and the `platforms` key to the
metadata strings, in that order. -/
def update_manifest_doc (doc : List (String × TomlValue)) (kept metas : List String) :
    List (String × TomlValue) :=
  setKey (setKey doc "wheels" (TomlValue.strList (wheelRelPaths kept))) "platforms"
    (TomlValue.strList metas)

/-- `update_manifest`, from loaded document to on-disk text: filter the
wheels, resolve the platform objects, rewrite the two keys, serialize and
post-process. -/
def update_manifest (doc : List (String × TomlValue)) (platforms : List String)
    (excluded files : List String) : Except ExtbpyErr String :=
  match get_platforms platforms with
  | Except.error e => Except.error e
  | Except.ok pobjs =>
    Except.ok (applyReplaces (dumpDoc
      (update_manifest_doc doc (filter_wheels excluded files).1
        (pobjs.map (fun p => p.metadata)))))

/-- `ExtensionBuilder.download_wheels`. `deps` is the dependency list of the
project configuration, `fetch` gives the outcome of the pip download for a
platform name, `_clean` only affects the wheels directory on disk. The
result mirrors the Python return value: `none` stands for the bare `return`
taken when the dependency list is empty (Python `None`), `some l` for the
returned list of successful platform names. -/
def download_wheels (deps : List String) (fetch : String → Bool)
    (platforms : List String) (_clean : Bool) (ignore_platform_errors : Bool) :
    Except ExtbpyErr (Option (List String)) :=
  match get_platforms platforms with
  | Except.error e => Except.error e
  | Except.ok pobjs =>
    if deps.isEmpty then Except.ok none
    else
      let successful := (pobjs.filter (fun p => fetch p.name)).map (fun p => p.name)
      let failed := (pobjs.filter (fun p => !fetch p.name)).map (fun p => p.name)
      if !failed.isEmpty && successful.isEmpty then
        Except.error (ExtbpyErr.dependencyError
          ("Failed to download wheels for all platforms: " ++ joinSep ", " failed))
      else if !failed.isEmpty then
        if ignore_platform_errors then Except.ok (some successful)
        else Except.error (ExtbpyErr.dependencyError
          ("Failed to download wheels for platforms: " ++ joinSep ", " failed))
      else Except.ok (some successful)

/-- One entry of the source-directory listing, as `__init__` inspects it. -/
structure DirEntry where
  ename : String
  isDir : Bool
  hasManifest : Bool
deriving DecidableEq

/-- The parts of the filesystem that `ExtensionBuilder.__init__` reads. -/
structure SourceDir where
  dirExists : Bool
  pyproject : Bool
  entries : List DirEntry
deriving DecidableEq

/-- `_validate_source_dir`: the source directory and its `pyproject.toml`
must exist. -/
def validate_source_dir (d : SourceDir) : Except ExtbpyErr Unit :=
  if !d.dirExists then
    Except.error (ExtbpyErr.configurationError "Source directory does not exist")
  else if !d.pyproject then
    Except.error (ExtbpyErr.configurationError "No pyproject.toml found")
  else Except.ok ()

/-- `_find_extension_dir`: the first subdirectory of the iteration that
contains `blender_manifest.toml`; otherwise the first existing directory
among the fallback names; otherwise a configuration error. -/
def find_extension_dir (d : SourceDir) : Except ExtbpyErr String :=
  match d.entries.find? (fun e => e.isDir && e.hasManifest) with
  | some e => Except.ok e.ename
  | none =>
    match ["extension", "addon", "warbler"].find?
        (fun n => d.entries.any (fun e => e.ename == n && e.isDir)) with
    | some n => Except.ok n
    | none => Except.error (ExtbpyErr.configurationError "No extension directory found")

/-- The validation part of `ExtensionBuilder.__init__`: validate the source
directory, then locate the extension directory. -/
def builder_init_extension_dir (d : SourceDir) : Except ExtbpyErr String :=
  match validate_source_dir d with
  | Except.error e => Except.error e
  | Except.ok _ => find_extension_dir d

/-- Modelled from the spec: `get_configured_platforms` is exercised by
`tests/test_builder.py` but its definition is not among the provided source
files; this follows the spec operation "get configured platforms". The
argument is the optional platform list of the tool section of
`pyproject.toml`; absent means the empty list, any unregistered name means
a configuration error listing the bad names. -/
def get_configured_platforms (configured : Option (List String)) :
    Except ExtbpyErr (List String) :=
  match configured with
  | none => Except.ok []
  | some names =>
    let bad := names.filter (fun n => !platformNames.contains n)
    if bad.isEmpty then Except.ok names
    else Except.error (ExtbpyErr.configurationError
      ("Invalid platforms: " ++ joinSep ", " bad))

/-- A concrete loaded manifest with a string field holding a backslash,
used to exercise `update_manifest` on an input outside the two rewritten
keys. The value of `path` is the three characters `C:` and a backslash
followed by `x`. -/
def manifestWithPath : List (String × TomlValue) :=
  [("schema_version", TomlValue.str "1.0.0"), ("path", TomlValue.str "C:\\x")]

/-- A concrete source directory whose listing holds two subdirectories that
both contain `blender_manifest.toml`. -/
def twoManifestSrc : SourceDir :=
  ⟨true, true, [⟨"alpha", true, true⟩, ⟨"beta", true, true⟩]⟩

theorem startsList_self_append : ∀ (l t : List Char), startsList l (l ++ t) = true
  | [], _ => rfl
  | a :: as, t => by
    simp only [List.cons_append, startsList, beq_self_eq_true, Bool.true_and]
    exact startsList_self_append as t

theorem hasSub_of_startsList {n h : List Char} (hs : startsList n h = true) :
    hasSub n h = true := by
  cases h with
  | nil => simpa [hasSub] using hs
  | cons c t => simp [hasSub, hs]

theorem hasSub_cons {n t : List Char} (c : Char) (h : hasSub n t = true) :
    hasSub n (c :: t) = true := by
  simp [hasSub, h]

theorem hasSub_append_left {n b : List Char} :
    ∀ (a : List Char), hasSub n b = true → hasSub n (a ++ b) = true
  | [], h => h
  | c :: a, h => by
    simpa using hasSub_cons c (hasSub_append_left a h)

theorem hasSub_self_append (n t : List Char) : hasSub n (n ++ t) = true :=
  hasSub_of_startsList (startsList_self_append n t)

theorem strHasSub_append_left (n a b : String) (h : strHasSub n b = true) :
    strHasSub n (a ++ b) = true := by
  unfold strHasSub at h ⊢
  simp only [String.toList] at h ⊢
  rw [String.data_append]
  exact hasSub_append_left a.data h

theorem strHasSub_self_append (n t : String) : strHasSub n (n ++ t) = true := by
  unfold strHasSub
  simp only [String.toList]
  rw [String.data_append]
  exact hasSub_self_append n.data t.data

theorem strHasSub_mem_joinSep (sep : String) :
    ∀ (l : List String) (n : String), n ∈ l → strHasSub n (joinSep sep l) = true
  | [], n, h => absurd h (List.not_mem_nil n)
  | [a], n, h => by
    rcases List.mem_singleton.mp h with rfl
    have := strHasSub_self_append n ""
    simpa [joinSep] using this
  | a :: b :: rest, n, h => by
    rcases List.mem_cons.mp h with rfl | h2
    · show strHasSub n (n ++ sep ++ joinSep sep (b :: rest)) = true
      have : n ++ sep ++ joinSep sep (b :: rest) = n ++ (sep ++ joinSep sep (b :: rest)) := by
        simp [String.ext_iff, String.data_append, List.append_assoc]
      rw [this]
      exact strHasSub_self_append n (sep ++ joinSep sep (b :: rest))
    · show strHasSub n (a ++ sep ++ joinSep sep (b :: rest)) = true
      exact strHasSub_append_left n (a ++ sep) (joinSep sep (b :: rest))
        (strHasSub_mem_joinSep sep (b :: rest) n h2)

theorem lookupKey_setKey_self (k : String) (v : TomlValue) :
    ∀ (doc : List (String × TomlValue)), lookupKey k (setKey doc k v) = some v
  | [] => by simp [setKey, lookupKey, List.find?]
  | (k0, v0) :: rest => by
    by_cases hk : k0 = k
    · subst hk
      simp [setKey, lookupKey, List.find?]
    · have hb : (k0 == k) = false := beq_eq_false_iff_ne.mpr hk
      simp only [setKey, hb, if_false, lookupKey, List.find?, hb]
      exact lookupKey_setKey_self k v rest

theorem lookupKey_setKey_ne (k k2 : String) (v : TomlValue) (hne : k ≠ k2) :
    ∀ (doc : List (String × TomlValue)), lookupKey k (setKey doc k2 v) = lookupKey k doc
  | [] => by
    have hb : (k2 == k) = false := beq_eq_false_iff_ne.mpr (Ne.symm hne)
    simp [setKey, lookupKey, List.find?, hb]
  | (k0, v0) :: rest => by
    by_cases hk : k0 = k2
    · subst hk
      have hb : (k0 == k) = false := beq_eq_false_iff_ne.mpr (fun h => hne h.symm)
      simp [setKey, lookupKey, List.find?, hb]
    · have hb : (k0 == k2) = false := beq_eq_false_iff_ne.mpr hk
      by_cases h0 : k0 = k
      · subst h0
        simp [setKey, hb, lookupKey, List.find?]
      · have hb0 : (k0 == k) = false := beq_eq_false_iff_ne.mpr h0
        simp only [setKey, hb, if_false, lookupKey, List.find?, hb0]
        exact lookupKey_setKey_ne k k2 v hne rest

/-- C1: the wheel matcher classifies the three example filenames as the
spec states. The universal `any` wheel returns all four registry keys; the
`win_amd64` wheel returns exactly `windows-x64` (so the other three are
excluded); the macOS `universal2` wheel matches both macOS platforms. -/
theorem match_wheel_examples :
    match_wheel_to_platforms "pkg-1.0-py3-none-any.whl" = platformNames
    ∧ match_wheel_to_platforms "pkg-1.0-py3-none-win_amd64.whl" = ["windows-x64"]
    ∧ "macos-x64" ∈ match_wheel_to_platforms "pkg-1.0-py3-none-macosx_10_15_universal2.whl"
    ∧ "macos-arm64" ∈ match_wheel_to_platforms "pkg-1.0-py3-none-macosx_10_15_universal2.whl" := by
  decide

/-- C2: evaluation of `download_wheels` at the failing input. With an empty
dependency list and one valid platform whose download would succeed, the
call completes without raising, but the bare Python `return` yields `None`
(here `Except.ok none`) instead of the list of platforms whose download
succeeded, contradicting both the claim and the declared return type
`List[str]` of the function. -/
theorem download_wheels_empty_deps_none :
    download_wheels [] (fun _ => true) ["linux-x64"] true true = Except.ok none := by
  decide

/-- C3 counterexample: on `Darwin` with the unsupported architecture `ppc`,
detection does not fail; it returns `macos-x64`, a platform that does not
match the running machine (per the spec, `macos-x64` is the Intel x86-64
macOS platform). -/
theorem detect_darwin_ppc_counterexample :
    detect_current_platform "Darwin" "ppc" = Except.ok ["macos-x64"]
    ∧ specMachineMatches "macos-x64" "ppc" = false := by
  decide

/-- C9: passing an explicitly empty excluded-package set to the constructor
selects the default exclusion set, the `None` default does the same, a
non-empty set is used as given, and no argument can produce an empty
exclusion set. -/
theorem excluded_packages_empty_set_default :
    initExcludedPackages (some []) = defaultExcludedPackages
    ∧ initExcludedPackages none = defaultExcludedPackages
    ∧ (∀ l : List String, l ≠ [] → initExcludedPackages (some l) = l)
    ∧ (∀ arg, initExcludedPackages arg ≠ []) := by
  refine ⟨rfl, rfl, ?_, ?_⟩
  · intro l hl
    have he : l.isEmpty = false := by
      cases l with
      | nil => exact absurd rfl hl
      | cons a t => rfl
    show (if l.isEmpty = true then defaultExcludedPackages else l) = l
    rw [if_neg (by simp [he])]
  · intro arg
    cases arg with
    | none => decide
    | some l =>
      show (if l.isEmpty = true then defaultExcludedPackages else l) ≠ []
      by_cases he : l.isEmpty = true
      · rw [if_pos he]
        decide
      · rw [if_neg he]
        exact fun hnil => he (by subst hnil; rfl)

/-- Witness for C9: a non-empty explicit exclusion set is used as given. -/
theorem excluded_packages_empty_set_default_witness :
    initExcludedPackages (some ["numpy"]) = ["numpy"] :=
  excluded_packages_empty_set_default.2.2.1 ["numpy"] (by decide)

/-- C3 amended: successful detection returns exactly one registered
platform name, and outside macOS that name matches the running machine;
on Linux and Windows an unsupported architecture fails with a platform
error, and an unknown operating system fails with a platform error; but on
macOS every architecture other than `arm64`/`aarch64` is mapped to
`macos-x64` without validation instead of failing. -/
theorem detect_current_platform_amended (system machine : String) :
    (∀ l, detect_current_platform system machine = Except.ok l →
      ∃ p, l = [p] ∧ p ∈ platformNames ∧
        (lowerStr system ≠ "darwin" → specMachineMatches p (lowerStr machine) = true))
    ∧ (lowerStr system ≠ "darwin" → lowerStr system ≠ "linux" → lowerStr system ≠ "windows" →
        detect_current_platform system machine =
          Except.error (ExtbpyErr.platformError
            ("Unsupported operating system: " ++ lowerStr system)))
    ∧ (lowerStr system = "darwin" → lowerStr machine ≠ "arm64" → lowerStr machine ≠ "aarch64" →
        detect_current_platform system machine = Except.ok ["macos-x64"])
    ∧ (lowerStr system = "linux" → lowerStr machine ≠ "x86_64" → lowerStr machine ≠ "amd64" →
        detect_current_platform system machine =
          Except.error (ExtbpyErr.platformError
            ("Unsupported Linux architecture: " ++ lowerStr machine)))
    ∧ (lowerStr system = "windows" → lowerStr machine ≠ "x86_64" → lowerStr machine ≠ "amd64" →
        detect_current_platform system machine =
          Except.error (ExtbpyErr.platformError
            ("Unsupported Windows architecture: " ++ lowerStr machine))) := by
  by_cases hd : lowerStr system = "darwin"
  · by_cases hm : lowerStr machine = "arm64" ∨ lowerStr machine = "aarch64"
    · have heval : detect_current_platform system machine = Except.ok ["macos-arm64"] := by
        unfold detect_current_platform
        rw [if_pos hd, if_pos hm]
      refine ⟨?_, fun h => absurd hd h, ?_,
        fun hlx2 _ _ => absurd (hd.symm.trans hlx2) (by decide),
        fun hw2 _ _ => absurd (hd.symm.trans hw2) (by decide)⟩
      · intro l hl
        rw [heval] at hl
        injection hl with h
        subst h
        exact ⟨"macos-arm64", rfl, by decide, fun h => absurd hd h⟩
      · intro _ h1 h2
        rcases hm with h | h
        · exact absurd h h1
        · exact absurd h h2
    · have heval : detect_current_platform system machine = Except.ok ["macos-x64"] := by
        unfold detect_current_platform
        rw [if_pos hd, if_neg hm]
      refine ⟨?_, fun h => absurd hd h, fun _ _ _ => heval,
        fun hlx2 _ _ => absurd (hd.symm.trans hlx2) (by decide),
        fun hw2 _ _ => absurd (hd.symm.trans hw2) (by decide)⟩
      intro l hl
      rw [heval] at hl
      injection hl with h
      subst h
      exact ⟨"macos-x64", rfl, by decide, fun h => absurd hd h⟩
  · by_cases hlx : lowerStr system = "linux"
    · by_cases hm : lowerStr machine = "x86_64" ∨ lowerStr machine = "amd64"
      · have heval : detect_current_platform system machine = Except.ok ["linux-x64"] := by
          unfold detect_current_platform
          rw [if_neg hd, if_pos hlx, if_pos hm]
        refine ⟨?_, fun _ h => absurd hlx h, fun h => absurd h hd, ?_,
          fun hw2 _ _ => absurd (hlx.symm.trans hw2) (by decide)⟩
        · intro l hl
          rw [heval] at hl
          injection hl with h
          subst h
          refine ⟨"linux-x64", rfl, by decide, fun _ => ?_⟩
          rcases hm with h | h <;> rw [h] <;> decide
        · intro _ h1 h2
          rcases hm with h | h
          · exact absurd h h1
          · exact absurd h h2
      · have heval : detect_current_platform system machine =
            Except.error (ExtbpyErr.platformError
              ("Unsupported Linux architecture: " ++ lowerStr machine)) := by
          unfold detect_current_platform
          rw [if_neg hd, if_pos hlx, if_neg hm]
        refine ⟨?_, fun _ h => absurd hlx h, fun h => absurd h hd, fun _ _ _ => heval,
          fun hw2 _ _ => absurd (hlx.symm.trans hw2) (by decide)⟩
        intro l hl
        rw [heval] at hl
        simp at hl
    · by_cases hw : lowerStr system = "windows"
      · by_cases hm : lowerStr machine = "x86_64" ∨ lowerStr machine = "amd64"
        · have heval : detect_current_platform system machine = Except.ok ["windows-x64"] := by
            unfold detect_current_platform
            rw [if_neg hd, if_neg hlx, if_pos hw, if_pos hm]
          refine ⟨?_, fun _ _ h => absurd hw h, fun h => absurd h hd,
            fun hlx2 _ _ => absurd (hw.symm.trans hlx2) (by decide), ?_⟩
          · intro l hl
            rw [heval] at hl
            injection hl with h
            subst h
            refine ⟨"windows-x64", rfl, by decide, fun _ => ?_⟩
            rcases hm with h | h <;> rw [h] <;> decide
          · intro _ h1 h2
            rcases hm with h | h
            · exact absurd h h1
            · exact absurd h h2
        · have heval : detect_current_platform system machine =
              Except.error (ExtbpyErr.platformError
                ("Unsupported Windows architecture: " ++ lowerStr machine)) := by
            unfold detect_current_platform
            rw [if_neg hd, if_neg hlx, if_pos hw, if_neg hm]
          refine ⟨?_, fun _ _ h => absurd hw h, fun h => absurd h hd,
            fun hlx2 _ _ => absurd (hw.symm.trans hlx2) (by decide), fun _ _ _ => heval⟩
          intro l hl
          rw [heval] at hl
          simp at hl
      · have heval : detect_current_platform system machine =
            Except.error (ExtbpyErr.platformError
              ("Unsupported operating system: " ++ lowerStr system)) := by
          unfold detect_current_platform
          rw [if_neg hd, if_neg hlx, if_neg hw]
        refine ⟨?_, fun _ _ _ => heval, fun h => absurd h hd,
          fun h _ _ => absurd h hlx, fun h _ _ => absurd h hw⟩
        intro l hl
        rw [heval] at hl
        simp at hl

/-- Witness for C3 amended: an unknown operating system fails with a
platform error, detection on Linux x86-64 returns `linux-x64`, and the
unsupported architectures riscv64 on Linux and arm64 on Windows fail with
the respective platform errors. -/
theorem detect_current_platform_amended_witness :
    detect_current_platform "SunOS" "sparc" =
      Except.error (ExtbpyErr.platformError ("Unsupported operating system: " ++ lowerStr "SunOS"))
    ∧ (∃ p, ["linux-x64"] = [p] ∧ p ∈ platformNames ∧
        (lowerStr "Linux" ≠ "darwin" → specMachineMatches p (lowerStr "x86_64") = true))
    ∧ detect_current_platform "Linux" "riscv64" =
        Except.error (ExtbpyErr.platformError
          ("Unsupported Linux architecture: " ++ lowerStr "riscv64"))
    ∧ detect_current_platform "Windows" "arm64" =
        Except.error (ExtbpyErr.platformError
          ("Unsupported Windows architecture: " ++ lowerStr "arm64")) :=
  ⟨(detect_current_platform_amended "SunOS" "sparc").2.1 (by decide) (by decide) (by decide),
   (detect_current_platform_amended "Linux" "x86_64").1 ["linux-x64"] (by decide),
   (detect_current_platform_amended "Linux" "riscv64").2.2.2.1
     (by decide) (by decide) (by decide),
   (detect_current_platform_amended "Windows" "arm64").2.2.2.2
     (by decide) (by decide) (by decide)⟩

/-- C6: for every registered platform name, lookup returns a `Platform`
whose `name` field equals the key; for every unregistered name, lookup
fails with a platform error whose message contains every valid platform
name. The registry itself is a top-level constant of the embedding, so no
operation can mutate it. -/
theorem get_platform_spec (name : String) :
    (name ∈ platformNames →
      ∃ p, get_platform name = Except.ok p ∧ p.name = name)
    ∧ (name ∉ platformNames →
      get_platform name = Except.error (ExtbpyErr.platformError (unsupportedMsg name))
      ∧ ∀ k ∈ platformNames, strHasSub k (unsupportedMsg name) = true) := by
  constructor
  · intro h
    have h4 : name = "windows-x64" ∨ name = "linux-x64" ∨ name = "macos-arm64" ∨
        name = "macos-x64" := by
      simpa [platformNames, PLATFORMS] using h
    rcases h4 with rfl | rfl | rfl | rfl
    · exact ⟨_, rfl, rfl⟩
    · exact ⟨_, rfl, rfl⟩
    · exact ⟨_, rfl, rfl⟩
    · exact ⟨_, rfl, rfl⟩
  · intro h
    have h4 : ¬(name = "windows-x64" ∨ name = "linux-x64" ∨ name = "macos-arm64" ∨
        name = "macos-x64") := by
      intro hc
      exact h (by simpa [platformNames, PLATFORMS] using hc)
    push_neg at h4
    obtain ⟨h1, h2, h3, hx⟩ := h4
    constructor
    · have b1 : (("windows-x64" : String) == name) = false :=
        beq_eq_false_iff_ne.mpr (Ne.symm h1)
      have b2 : (("linux-x64" : String) == name) = false :=
        beq_eq_false_iff_ne.mpr (Ne.symm h2)
      have b3 : (("macos-arm64" : String) == name) = false :=
        beq_eq_false_iff_ne.mpr (Ne.symm h3)
      have b4 : (("macos-x64" : String) == name) = false :=
        beq_eq_false_iff_ne.mpr (Ne.symm hx)
      simp [get_platform, PLATFORMS, List.find?, b1, b2, b3, b4]
    · intro k hk
      unfold unsupportedMsg
      exact strHasSub_append_left k _ _ (strHasSub_mem_joinSep ", " platformNames k hk)

/-- Witness for C6: lookup of the registered name `windows-x64` and of the
unregistered name `solaris-sparc`. -/
theorem get_platform_spec_witness :
    (∃ p, get_platform "windows-x64" = Except.ok p ∧ p.name = "windows-x64")
    ∧ (get_platform "solaris-sparc"
        = Except.error (ExtbpyErr.platformError (unsupportedMsg "solaris-sparc"))
      ∧ ∀ k ∈ platformNames, strHasSub k (unsupportedMsg "solaris-sparc") = true) :=
  ⟨(get_platform_spec "windows-x64").1 (by decide),
   (get_platform_spec "solaris-sparc").2 (by decide)⟩

/-- C8: the configured-platform reader returns the empty list when the
setting is absent, returns the configured list when every name is
registered, and fails with an "Invalid platforms" error whose message
contains every unregistered name when at least one name is unregistered. -/
theorem get_configured_platforms_spec :
    get_configured_platforms none = Except.ok []
    ∧ (∀ names, (∀ n ∈ names, n ∈ platformNames) →
        get_configured_platforms (some names) = Except.ok names)
    ∧ (∀ names n0, n0 ∈ names → n0 ∉ platformNames →
        get_configured_platforms (some names)
          = Except.error (ExtbpyErr.configurationError
              ("Invalid platforms: "
                ++ joinSep ", " (names.filter (fun n => !platformNames.contains n))))
        ∧ ∀ n ∈ names, n ∉ platformNames →
            strHasSub n ("Invalid platforms: "
              ++ joinSep ", " (names.filter (fun n => !platformNames.contains n))) = true) := by
  refine ⟨rfl, ?_, ?_⟩
  · intro names hall
    have hf : names.filter (fun n => !platformNames.contains n) = [] := by
      rw [List.filter_eq_nil_iff]
      intro a ha
      simpa using hall a ha
    show (if (names.filter (fun n => !platformNames.contains n)).isEmpty = true
      then Except.ok names
      else Except.error (ExtbpyErr.configurationError
        ("Invalid platforms: "
          ++ joinSep ", " (names.filter (fun n => !platformNames.contains n))))) = Except.ok names
    rw [hf]
    rfl
  · intro names n0 hmem hbad
    have hc0 : platformNames.contains n0 = false := by
      cases hc2 : platformNames.contains n0 with
      | false => rfl
      | true => exact absurd (List.mem_of_elem_eq_true hc2) hbad
    have hn0 : n0 ∈ names.filter (fun n => !platformNames.contains n) := by
      rw [List.mem_filter]
      exact ⟨hmem, by simpa using hbad⟩
    have hne : (names.filter (fun n => !platformNames.contains n)).isEmpty = false := by
      cases hfe : names.filter (fun n => !platformNames.contains n) with
      | nil => rw [hfe] at hn0; exact absurd hn0 (List.not_mem_nil n0)
      | cons a t => rfl
    constructor
    · show (if (names.filter (fun n => !platformNames.contains n)).isEmpty = true
        then Except.ok names
        else Except.error (ExtbpyErr.configurationError
          ("Invalid platforms: "
            ++ joinSep ", " (names.filter (fun n => !platformNames.contains n))))) = _
      rw [if_neg (fun hcon => by rw [hne] at hcon; exact Bool.false_ne_true hcon)]
    · intro n hn hnreg
      have hcn : platformNames.contains n = false := by
        cases hc2 : platformNames.contains n with
        | false => rfl
        | true => exact absurd (List.mem_of_elem_eq_true hc2) hnreg
      have hnf : n ∈ names.filter (fun m => !platformNames.contains m) := by
        rw [List.mem_filter]
        exact ⟨hn, by simpa using hnreg⟩
      exact strHasSub_append_left n _ _
        (strHasSub_mem_joinSep ", " (names.filter (fun m => !platformNames.contains m)) n hnf)

/-- Witness for C8: the all-valid configuration of the test project and an
invalid single-name configuration. -/
theorem get_configured_platforms_spec_witness :
    get_configured_platforms (some ["windows-x64", "linux-x64"])
      = Except.ok ["windows-x64", "linux-x64"]
    ∧ get_configured_platforms (some ["invalid-platform"])
        = Except.error (ExtbpyErr.configurationError
            ("Invalid platforms: "
              ++ joinSep ", " (["invalid-platform"].filter (fun n => !platformNames.contains n)))) :=
  ⟨get_configured_platforms_spec.2.1 ["windows-x64", "linux-x64"] (by decide),
   (get_configured_platforms_spec.2.2 ["invalid-platform"] "invalid-platform"
      (by decide) (by decide)).1⟩

/-- C4: `_filter_wheels` keeps exactly the wheel files no excluded package
name matches (case-insensitive substring), removes exactly the matched
ones, and the files left on disk are exactly the kept list (up to the
sorting applied to the returned list); on the concrete two-wheel directory
with one excluded-package wheel, exactly the kept file remains and a
one-element list is returned. -/
theorem filter_wheels_spec (excluded files : List String) :
    (∀ f, f ∈ (filter_wheels excluded files).1 ↔
      f ∈ files ∧ shouldExclude excluded f = false)
    ∧ (∀ f, f ∈ (filter_wheels excluded files).2 ↔
      f ∈ files ∧ shouldExclude excluded f = true)
    ∧ (remainingOnDisk excluded files).Perm (filter_wheels excluded files).1
    ∧ filter_wheels defaultExcludedPackages
        ["numpy-1.26.0-cp311-cp311-win_amd64.whl", "click-8.1.7-py3-none-any.whl"]
      = (["click-8.1.7-py3-none-any.whl"], ["numpy-1.26.0-cp311-cp311-win_amd64.whl"])
    ∧ remainingOnDisk defaultExcludedPackages
        ["numpy-1.26.0-cp311-cp311-win_amd64.whl", "click-8.1.7-py3-none-any.whl"]
      = ["click-8.1.7-py3-none-any.whl"] := by
  refine ⟨?_, ?_, ?_, by decide, by decide⟩
  · intro f
    simp [filter_wheels, sortWheels, List.mem_filter,
      (List.perm_insertionSort wheelOrder files).mem_iff]
  · intro f
    simp [filter_wheels, sortWheels, List.mem_filter,
      (List.perm_insertionSort wheelOrder files).mem_iff]
  · exact List.Perm.filter _ (List.perm_insertionSort wheelOrder files).symm

/-- C10: the kept list returned by `_filter_wheels` is sorted
lexicographically, is invariant under permuting the directory listing, and
the `wheels` entry that `update_manifest` writes is exactly the kept list
prefixed with `./wheels/`, hence also in lexicographic filename order. -/
theorem filter_wheels_sorted_spec (excluded files files2 : List String)
    (hperm : files.Perm files2) :
    List.Sorted wheelOrder (filter_wheels excluded files).1
    ∧ filter_wheels excluded files = filter_wheels excluded files2
    ∧ (∀ doc metas,
        lookupKey "wheels" (update_manifest_doc doc (filter_wheels excluded files).1 metas)
          = some (TomlValue.strList (wheelRelPaths (filter_wheels excluded files).1))) := by
  refine ⟨?_, ?_, ?_⟩
  · exact List.Pairwise.filter _ (List.sorted_insertionSort wheelOrder files)
  · have hs : sortWheels files = sortWheels files2 :=
      List.eq_of_perm_of_sorted
        ((List.perm_insertionSort _ files).trans
          (hperm.trans (List.perm_insertionSort _ files2).symm))
        (List.sorted_insertionSort _ files) (List.sorted_insertionSort _ files2)
    unfold filter_wheels
    rw [hs]
  · intro doc metas
    unfold update_manifest_doc
    rw [lookupKey_setKey_ne _ _ _ (by decide), lookupKey_setKey_self]

/-- Witness for C10: sortedness and permutation-invariance on a concrete
two-file listing given in reverse lexicographic order. -/
theorem filter_wheels_sorted_spec_witness :
    List.Sorted wheelOrder
      (filter_wheels ["numpy"] ["b.whl", "a.whl"]).1
    ∧ filter_wheels ["numpy"] ["b.whl", "a.whl"] = filter_wheels ["numpy"] ["a.whl", "b.whl"] :=
  ⟨(filter_wheels_sorted_spec ["numpy"] ["b.whl", "a.whl"] ["a.whl", "b.whl"]
      (List.Perm.swap "a.whl" "b.whl" [])).1,
   (filter_wheels_sorted_spec ["numpy"] ["b.whl", "a.whl"] ["a.whl", "b.whl"]
      (List.Perm.swap "a.whl" "b.whl" [])).2.1⟩

/-- C5 counterexample: the claim that every field other than the wheel list
and the platform list survives the load/serialize round trip unchanged
fails on a manifest whose `path` field holds the string `C:` backslash `x`.
The correct serialization of that field is `path = "C:\\x"`, but the global
`\\` to `/` rewrite applied to the whole dumped document turns it into
`path = "C:/x"`, which parses back to a different value. -/
theorem update_manifest_backslash_counterexample :
    ∃ text, update_manifest manifestWithPath ["windows-x64"] [] [] = Except.ok text
      ∧ strHasSub (dumpEntry "path" (TomlValue.str "C:\\x")) text = false
      ∧ strHasSub "path = \"C:/x\"" text = true := by
  refine ⟨_, rfl, ?_, ?_⟩ <;> decide

/-- C5 amended: at the document level, `update_manifest` overwrites exactly
the `wheels` and `platforms` keys and preserves the binding of every other
key of the loaded manifest; the claim fails only for the on-disk text,
because the textual post-processing of the serializer output is applied to
the whole document (see the counterexample). -/
theorem update_manifest_doc_frame (doc : List (String × TomlValue)) (kept metas : List String)
    (k : String) (hw : k ≠ "wheels") (hp : k ≠ "platforms") :
    lookupKey k (update_manifest_doc doc kept metas) = lookupKey k doc := by
  unfold update_manifest_doc
  rw [lookupKey_setKey_ne k "platforms" _ hp, lookupKey_setKey_ne k "wheels" _ hw]

/-- Witness for C5 amended: the `schema_version` binding of the concrete
manifest is untouched by the document-level update. -/
theorem update_manifest_doc_frame_witness :
    lookupKey "schema_version"
        (update_manifest_doc manifestWithPath ["a.whl"] ["windows-x64"])
      = lookupKey "schema_version" manifestWithPath :=
  update_manifest_doc_frame manifestWithPath ["a.whl"] ["windows-x64"] "schema_version"
    (by decide) (by decide)

/-- C7 counterexample: a source directory whose listing holds two
subdirectories that both contain a manifest does not make initialization
fail; the first one in iteration order is used. -/
theorem find_extension_dir_two_manifests :
    (twoManifestSrc.entries.filter (fun e => e.isDir && e.hasManifest)).length = 2
    ∧ builder_init_extension_dir twoManifestSrc = Except.ok "alpha" :=
  ⟨rfl, rfl⟩

/-- C7 amended: initialization fails with a configuration error naming the
missing precondition when the source directory is missing, when
`pyproject.toml` is missing, or when neither a manifest-bearing
subdirectory nor a fallback-named directory exists; when at least one
subdirectory contains a manifest, initialization succeeds with the first
such subdirectory in iteration order — uniqueness is not checked, so more
than one manifest-bearing subdirectory still succeeds. -/
theorem builder_init_amended (d : SourceDir) :
    (d.dirExists = false → builder_init_extension_dir d
      = Except.error (ExtbpyErr.configurationError "Source directory does not exist"))
    ∧ (d.dirExists = true → d.pyproject = false → builder_init_extension_dir d
      = Except.error (ExtbpyErr.configurationError "No pyproject.toml found"))
    ∧ (∀ ent, d.dirExists = true → d.pyproject = true →
      d.entries.find? (fun e => e.isDir && e.hasManifest) = some ent →
      builder_init_extension_dir d = Except.ok ent.ename)
    ∧ (d.dirExists = true → d.pyproject = true →
      d.entries.find? (fun e => e.isDir && e.hasManifest) = none →
      (["extension", "addon", "warbler"].find?
        (fun n => d.entries.any (fun e2 => e2.ename == n && e2.isDir))) = none →
      builder_init_extension_dir d
        = Except.error (ExtbpyErr.configurationError "No extension directory found")) := by
  refine ⟨?_, ?_, ?_, ?_⟩
  · intro h
    simp [builder_init_extension_dir, validate_source_dir, h]
  · intro h1 h2
    simp [builder_init_extension_dir, validate_source_dir, h1, h2]
  · intro ent h1 h2 hf
    simp [builder_init_extension_dir, validate_source_dir, h1, h2, find_extension_dir, hf]
  · intro h1 h2 hf hfb
    simp [builder_init_extension_dir, validate_source_dir, h1, h2, find_extension_dir, hf, hfb]

/-- Witness for C7 amended: a valid source directory with a single
manifest-bearing subdirectory initializes to that subdirectory. -/
theorem builder_init_amended_witness :
    builder_init_extension_dir ⟨true, true, [⟨"ext", true, true⟩]⟩ = Except.ok "ext" :=
  (builder_init_amended ⟨true, true, [⟨"ext", true, true⟩]⟩).2.2.1 ⟨"ext", true, true⟩ rfl rfl rfl
